import Mathlib

/-!
# Azure Data Factory dataset table: list and get hydrate functions

Shallow embedding of `azure/table_azure_data_factory_dataset.go`.

* Go pointers to strings (`*string`) are `Option String`; dereferencing `none` is a
  runtime panic, recorded as `HydrateResult.panic`.
* The session provider and the vendor SDK client are external collaborators; they are
  collected in `Env` as functions whose answers are arbitrary.
* Side effects (items handed to `StreamListItem`, vendor calls issued) are recorded in an
  explicit `World` that every operation threads through.
-/

namespace Azure

/-- Go `error` values, identified by the text returned by `err.Error()`. -/
abbrev Error := String

/-! ## Go standard library: `strings.Split` with a one-character separator -/

/-- Cut a character list at every occurrence of `sep`; `n` occurrences give `n + 1` pieces. -/
def splitChars (sep : Char) : List Char → List (List Char)
  | [] => [[]]
  | c :: cs =>
    if c = sep then [] :: splitChars sep cs
    else
      match splitChars sep cs with
      | [] => [[c]]
      | seg :: segs => (c :: seg) :: segs

/-- The Go call `strings.Split(s, sep)` for a separator of one character (the source only
uses `"/"`): all substrings of `s` between occurrences of `sep`, in order. -/
def strings.Split (s : String) (sep : Char) : List String :=
  (splitChars sep s.toList).map String.mk

/-! ## Vendor SDK data (package `datafactory`) -/

/-- The SDK type `datafactory.DatasetResource`: every scalar field is a `*string`; the
properties blob is kept as an uninterpreted key/value document. The Go field `Type` is
spelled `Type_`. -/
structure DatasetResource where
  Properties : List (String × String)
  ID : Option String
  Name : Option String
  Type_ : Option String
  Etag : Option String
deriving DecidableEq, Repr

/-- The SDK type `datafactory.Factory`, restricted to the fields a resource carries; the
list function reads `ID` and `Name` only. -/
structure Factory where
  ID : Option String
  Name : Option String
  Type_ : Option String
  Location : Option String
  ETag : Option String
deriving DecidableEq, Repr

/-- The record type `DatasetInfo` of the source (lines 93-96): the vendor dataset embedded
unchanged, plus the name of the factory it belongs to. -/
structure DatasetInfo where
  DatasetResource : DatasetResource
  FactoryName : String
deriving DecidableEq, Repr

/-- What `GetNewSession` hands back: the subscription and the authorizer. -/
structure Session where
  SubscriptionID : String
  Authorizer : String
deriving DecidableEq, Repr

/-- The SDK type `datafactory.DatasetsClient`. -/
structure DatasetsClient where
  SubscriptionID : String
  Authorizer : String
deriving DecidableEq, Repr

/-- The SDK constructor `datafactory.NewDatasetsClient(subscriptionID)`: no authorizer yet. -/
def NewDatasetsClient (subscriptionID : String) : DatasetsClient :=
  { SubscriptionID := subscriptionID, Authorizer := "" }

/-- The SDK's paged list result, as seen through its three methods `Values`, `NotDone`
and `NextWithContext`. The current page is `values`; what follows is fixed by the vendor:
* `final`: the vendor reports no more pages (`NotDone()` is false);
* `more`: more pages are reported and fetching the next one succeeds with `next`;
* `failing`: more pages are reported and fetching the next one fails with `err`. -/
inductive DatasetListResponsePage where
  | final (values : List DatasetResource)
  | more (values : List DatasetResource) (next : DatasetListResponsePage)
  | failing (values : List DatasetResource) (err : Error)
deriving DecidableEq, Repr

namespace DatasetListResponsePage

/-- The method `Values()`: the items of the current page. -/
def Values : DatasetListResponsePage → List DatasetResource
  | final values => values
  | more values _ => values
  | failing values _ => values

/-- The method `NotDone()`: the "more pages available" indicator. -/
def NotDone : DatasetListResponsePage → Bool
  | final _ => false
  | more _ _ => true
  | failing _ _ => true

/-- The method `NextWithContext(ctx)`: fetch the next page. Past the end the vendor
hands out an empty page. -/
def NextWithContext : DatasetListResponsePage → Except Error DatasetListResponsePage
  | final _ => .ok (final [])
  | more _ next => .ok next
  | failing _ err => .error err

/-- A paged result all of whose fetches succeed: first page `first`, then the pages of
`rest` one fetch each, after which the vendor reports that no page is left. -/
def ofPages (first : List DatasetResource) : List (List DatasetResource) → DatasetListResponsePage
  | [] => final first
  | p :: ps => more first (ofPages p ps)

/-- A paged result whose fetches succeed for the pages of `rest` and whose following
fetch fails with `err`. -/
def ofPagesThenError (first : List DatasetResource) (err : Error) :
    List (List DatasetResource) → DatasetListResponsePage
  | [] => failing first err
  | p :: ps => more first (ofPagesThenError p err ps)

/-- The items of every page reachable by successful fetches, in page order. -/
def fetched : DatasetListResponsePage → List DatasetResource
  | final values => values
  | more values next => values ++ fetched next
  | failing values _ => values

/-- Number of `NextWithContext` calls a loop `for NotDone() { NextWithContext() }` issues. -/
def fetches : DatasetListResponsePage → Nat
  | final _ => 0
  | more _ next => fetches next + 1
  | failing _ _ => 1

end DatasetListResponsePage

/-! ## Host engine data (package `plugin`) -/

/-- The protobuf type `proto.QualValue`: a value of one of several kinds. -/
inductive QualValue where
  | StringValue (s : String)
  | Int64Value (n : Int)
  | BoolValue (b : Bool)
deriving DecidableEq, Repr

/-- The getter `(*QualValue).GetStringValue()`: the string of a string-valued qualifier,
and `""` for a nil receiver (a key missing from the map) or a value of another kind. -/
def GetStringValue : Option QualValue → String
  | some (.StringValue s) => s
  | _ => ""

/-- The part of `plugin.QueryData` the hydrate functions read: the key column qualifiers,
a Go map from column name to qualifier value. -/
structure QueryData where
  KeyColumnQuals : List (String × QualValue)
deriving DecidableEq, Repr

/-- The Go map read `d.KeyColumnQuals[name]`, nil when the key is absent. -/
def QueryData.qual (d : QueryData) (name : String) : Option QualValue :=
  d.KeyColumnQuals.lookup name

/-- The part of `plugin.HydrateData` the list function reads: the parent item, which the
parent hydrate `listDataFactories` produces as a `datafactory.Factory`. -/
structure HydrateData where
  Item : Factory
deriving DecidableEq, Repr

/-- A vendor API call, with the client it was issued on and its arguments. -/
inductive VendorCall where
  | ListByFactory (client : DatasetsClient) (resourceGroupName factoryName : String)
  | NextWithContext
  | Get (client : DatasetsClient) (resourceGroupName factoryName datasetName ifNoneMatch : String)
deriving DecidableEq, Repr

/-- Observable effects so far: the items handed to the host sink by `StreamListItem` and
the vendor calls issued, both oldest first. -/
structure World where
  streamed : List DatasetInfo
  calls : List VendorCall
deriving DecidableEq, Repr

/-- The host method `d.StreamListItem(ctx, item)`: append one item to the sink. -/
def World.StreamListItem (w : World) (item : DatasetInfo) : World :=
  { w with streamed := w.streamed ++ [item] }

/-- Log one vendor call. -/
def World.record (w : World) (c : VendorCall) : World :=
  { w with calls := w.calls ++ [c] }

/-- The external collaborators: the session provider and the two vendor operations. -/
structure Env where
  GetNewSession : String → Except Error Session
  ListByFactory : DatasetsClient → String → String → Except Error DatasetListResponsePage
  Get : DatasetsClient → String → String → String → String → Except Error DatasetResource

/-- What a hydrate function does: return Go's pair `(interface{}, error)`, or panic. -/
inductive HydrateResult where
  | ret (item : Option DatasetInfo) (err : Option Error)
  | panic
deriving DecidableEq, Repr

/-! ## The list function (source lines 100-132) -/

/-- The loop `for _, dataset := range result.Values() { d.StreamListItem(ctx,
DatasetInfo{dataset, *factoryInfo.Name}) }` of lines 118-120 and 127-129. -/
def streamValues (factoryName : String) (values : List DatasetResource) (w : World) : World :=
  values.foldl (fun acc dataset => acc.StreamListItem ⟨dataset, factoryName⟩) w

/-- The loop of lines 122-130: while `result.NotDone()`, call `NextWithContext`; on an
error return `(nil, err)`, otherwise stream the new page. Falling out of the loop reaches
`return nil, err` of line 131 with `err` nil. -/
def nextPages (factoryName : String) : DatasetListResponsePage → World → HydrateResult × World
  | .final _, w => (.ret none none, w)
  | .failing _ err, w => (.ret none (some err), w.record .NextWithContext)
  | .more _ next, w =>
    nextPages factoryName next (streamValues factoryName next.Values (w.record .NextWithContext))

/-- The function `listDataFactoryDatasets`, called by the host once per parent factory.
The type assertion `h.Item.(datafactory.Factory)` is carried by the type of `h.Item`. The
three `panic` results are the nil dereference `*factoryInfo.ID`, the index `[4]` out of
range (both line 109) and the nil dereference `*factoryInfo.Name` (line 114). -/
def listDataFactoryDatasets (env : Env) (h : HydrateData) (w : World) : HydrateResult × World :=
  match env.GetNewSession "MANAGEMENT" with
  | .error err => (.ret none (some err), w)
  | .ok session =>
    let subscriptionID := session.SubscriptionID
    let factoryInfo := h.Item
    match factoryInfo.ID with
    | none => (.panic, w)
    | some id =>
      match (strings.Split id '/')[4]? with
      | none => (.panic, w)
      | some resourceGroup =>
        let datasetClient := { NewDatasetsClient subscriptionID with Authorizer := session.Authorizer }
        match factoryInfo.Name with
        | none => (.panic, w)
        | some name =>
          let w := w.record (.ListByFactory datasetClient resourceGroup name)
          match env.ListByFactory datasetClient resourceGroup name with
          | .error err => (.ret none (some err), w)
          | .ok result => nextPages name result (streamValues name result.Values w)

/-- The host driving the list: one call of `listDataFactoryDatasets` per parent, in parent
order, on the same sink; the result of every call is kept. -/
def listForParents (env : Env) : List Factory → World → List HydrateResult × World
  | [], w => ([], w)
  | parent :: parents, w =>
    let r := listDataFactoryDatasets env ⟨parent⟩ w
    let rs := listForParents env parents r.2
    (r.1 :: rs.1, rs.2)

/-! ## The get function (source lines 136-170) -/

/-- The function `getDataFactoryDataset`: session first, then the guard on the three key
parts, then one vendor call, then the check `op.ID != nil`. -/
def getDataFactoryDataset (env : Env) (d : QueryData) (w : World) : HydrateResult × World :=
  match env.GetNewSession "MANAGEMENT" with
  | .error err => (.ret none (some err), w)
  | .ok session =>
    let subscriptionID := session.SubscriptionID
    let datasetClient := { NewDatasetsClient subscriptionID with Authorizer := session.Authorizer }
    let datasetName := GetStringValue (d.qual "name")
    let resourceGroup := GetStringValue (d.qual "resource_group")
    let factoryName := GetStringValue (d.qual "factory_name")
    if datasetName = "" ∨ resourceGroup = "" ∨ factoryName = "" then
      (.ret none none, w)
    else
      let w := w.record (.Get datasetClient resourceGroup factoryName datasetName "")
      match env.Get datasetClient resourceGroup factoryName datasetName "" with
      | .error err => (.ret none (some err), w)
      | .ok op =>
        if op.ID ≠ none then (.ret (some ⟨op, factoryName⟩) none, w)
        else (.ret none none, w)

/-! ## Expected outputs, in the words of the specification -/

/-- Each item of `items` paired with the factory name `factoryName`. -/
def tagged (factoryName : String) (items : List DatasetResource) : List DatasetInfo :=
  items.map (fun dataset => ⟨dataset, factoryName⟩)

/-- What a run of the paging loop returns: `(nil, nil)` when every fetch succeeds, and
`(nil, err)` for the first failing fetch. -/
def DatasetListResponsePage.outcome : DatasetListResponsePage → HydrateResult
  | .final _ => .ret none none
  | .more _ next => next.outcome
  | .failing _ err => .ret none (some err)

/-- One parent of a listing scenario: the factory and the pages the vendor hands out for
it, the first page and the following ones. -/
structure ParentPages where
  parent : Factory
  first : List DatasetResource
  rest : List (List DatasetResource)
deriving DecidableEq, Repr

/-- The records a parent contributes: all its pages concatenated, page order then order
within the page, each item tagged with the parent's name. -/
def ParentPages.records (x : ParentPages) : List DatasetInfo :=
  tagged (x.parent.Name.getD "") (x.first :: x.rest).flatten

/-! ## The table definition (source lines 16-91) -/

/-- Modelled from the spec: the helper `isNotFoundError` is declared outside the source
file. The spec says that vendor errors matching one of the listed codes are suppressed and
that any other error is not; it does not say how an error is matched against a code, so
that test is the argument `errorMatches`. -/
def isNotFoundError (errorMatches : Error → String → Bool) (notFoundErrors : List String)
    (err : Error) : Bool :=
  notFoundErrors.any (fun code => errorMatches err code)

/-- The fields of `plugin.GetConfig` set by the table, the hydrate function apart. -/
structure GetConfig where
  KeyColumns : List String
  ShouldIgnoreError : Error → Bool

/-- The `Get` configuration of `tableAzureDataFactoryDataset` (lines 20-24). -/
def tableAzureDataFactoryDataset.Get (errorMatches : Error → String → Bool) : GetConfig :=
  { KeyColumns := ["name", "resource_group", "factory_name"]
    ShouldIgnoreError :=
      isNotFoundError errorMatches ["ResourceNotFound", "ResourceGroupNotFound", "404"] }

/-- The transform `transform.FromField("ID")` on a `DatasetInfo`: the field `ID`, promoted
from the embedded dataset. -/
def FromFieldID (item : DatasetInfo) : Option String :=
  item.DatasetResource.ID

/-- Modelled from the spec: the transform `extractResourceGroupFromID` is declared outside
the source file. The spec calls the resource group a substring extracted from the
identifier, a path segment at a fixed position: in
`/subscriptions/SUB/resourceGroups/RG/...` it is the segment at index 4. No identifier,
or one without that segment, gives no value. -/
def extractResourceGroupFromID (value : Option String) : Option String :=
  match value with
  | none => none
  | some id => (strings.Split id '/')[4]?

/-- Modelled from the spec: the transform `idToSubscriptionID` is declared outside the
source file. The spec calls the subscription id a substring extracted from the
identifier, a path segment at a fixed position: in
`/subscriptions/SUB/resourceGroups/RG/...` it is the segment at index 2. -/
def idToSubscriptionID (value : Option String) : Option String :=
  match value with
  | none => none
  | some id => (strings.Split id '/')[2]?

/-- A string column of the table: its name and how its value is computed from a record. -/
structure Column where
  Name : String
  Transform : DatasetInfo → Option String

/-- The column `resource_group` (lines 77-82):
`transform.FromField("ID").Transform(extractResourceGroupFromID)`. -/
def tableAzureDataFactoryDataset.resource_group : Column :=
  { Name := "resource_group"
    Transform := fun item => extractResourceGroupFromID (FromFieldID item) }

/-- The column `subscription_id` (lines 83-88):
`transform.FromField("ID").Transform(idToSubscriptionID)`. -/
def tableAzureDataFactoryDataset.subscription_id : Column :=
  { Name := "subscription_id"
    Transform := fun item => idToSubscriptionID (FromFieldID item) }

/-- Whether `pat` occurs in `text` as a contiguous run of characters. -/
def occursIn (pat : List Char) : List Char → Bool
  | [] => pat.isEmpty
  | c :: cs => pat.isPrefixOf (c :: cs) || occursIn pat cs

/-- One way to match an error against a code: the error's text contains the code. -/
def containsCode (err : Error) (code : String) : Bool :=
  occursIn code.toList err.toList

/-! ## Concrete scenarios -/

/-- The resource path of dataset `name` in factory `factory` of the sample subscription. -/
def sampleDatasetID (factory name : String) : String :=
  "/subscriptions/SUB/resourceGroups/RG/providers/Microsoft.DataFactory/factories/" ++ factory
    ++ "/datasets/" ++ name

/-- A dataset as the vendor returns it. -/
def sampleDataset (factory name : String) : DatasetResource :=
  { Properties := [("type", "AzureBlob")]
    ID := some (sampleDatasetID factory name)
    Name := some name
    Type_ := some "Microsoft.DataFactory/factories/datasets"
    Etag := some "0a00" }

/-- A success payload with nothing set, the vendor's way of saying "not found". -/
def emptyPayload : DatasetResource :=
  { Properties := [], ID := none, Name := none, Type_ := none, Etag := none }

/-- A success payload whose identifier is set to the empty string. -/
def blankIDPayload : DatasetResource :=
  { Properties := [], ID := some "", Name := some "blank", Type_ := none, Etag := none }

/-- A parent factory of the sample subscription. -/
def sampleFactory (name : String) : Factory :=
  { ID := some ("/subscriptions/SUB/resourceGroups/RG/providers/Microsoft.DataFactory/factories/"
      ++ name)
    Name := some name
    Type_ := some "Microsoft.DataFactory/factories"
    Location := some "westeurope"
    ETag := none }

/-- A factory value with no `ID` set. -/
def factoryWithoutID : Factory :=
  { ID := none, Name := some "FactoryA", Type_ := none, Location := none, ETag := none }

/-- The session of the sample scenarios. -/
def sampleSession : Session :=
  { SubscriptionID := "SUB", Authorizer := "bearer" }

/-- The vendor of the sample scenarios. `FactoryA` has datasets `D1`, `D2` in one page;
`FactoryB` has `D3` on a first page followed by an empty last page; `FactoryC` has `D1`,
then `D2`, and the fetch after that fails; `FactoryG` lists one item with nothing set;
listing any other factory fails. Getting `D1` succeeds, `ghost` yields the empty
payload, `blank` a payload with the identifier `""`, `missing` fails with
`ResourceNotFound`, anything else with `InternalServerError`. -/
def sampleEnv : Env :=
  { GetNewSession := fun _ => .ok sampleSession
    ListByFactory := fun _ _ factoryName =>
      if factoryName = "FactoryA" then
        .ok (.ofPages [sampleDataset "FactoryA" "D1", sampleDataset "FactoryA" "D2"] [])
      else if factoryName = "FactoryB" then
        .ok (.ofPages [sampleDataset "FactoryB" "D3"] [[]])
      else if factoryName = "FactoryC" then
        .ok (.ofPagesThenError [sampleDataset "FactoryC" "D1"] "TooManyRequests"
          [[sampleDataset "FactoryC" "D2"]])
      else if factoryName = "FactoryG" then
        .ok (.ofPages [emptyPayload] [])
      else .error "ResourceNotFound"
    Get := fun _ _ factoryName datasetName _ =>
      if datasetName = "D1" then .ok (sampleDataset factoryName "D1")
      else if datasetName = "ghost" then .ok emptyPayload
      else if datasetName = "blank" then .ok blankIDPayload
      else if datasetName = "missing" then .error "ResourceNotFound"
      else .error "InternalServerError" }

/-- The sample vendor behind a session provider that fails. -/
def noSessionEnv : Env :=
  { sampleEnv with GetNewSession := fun _ => .error "AuthorizationFailed" }

/-- Key column qualifiers binding the three key columns to strings. -/
def keyQuals (name resourceGroup factoryName : String) : QueryData :=
  { KeyColumnQuals :=
      [("name", .StringValue name), ("resource_group", .StringValue resourceGroup),
        ("factory_name", .StringValue factoryName)] }

/-- The world before anything happened. -/
def World.empty : World :=
  { streamed := [], calls := [] }

/-! ## General facts about the embedding -/

theorem streamValues_eq (factoryName : String) (values : List DatasetResource) (w : World) :
    streamValues factoryName values w =
      { streamed := w.streamed ++ tagged factoryName values, calls := w.calls } := by
  induction values generalizing w with
  | nil => simp [streamValues, tagged]
  | cons v vs ih =>
    have step : streamValues factoryName (v :: vs) w =
        streamValues factoryName vs (w.StreamListItem ⟨v, factoryName⟩) := rfl
    rw [step, ih]
    simp [World.StreamListItem, tagged]

/-- The paging loop, read through the three methods of the paged result: this is the
loop of the source, `for result.NotDone() { err = result.NextWithContext(ctx); ... }`. -/
theorem nextPages_loop (factoryName : String) (result : DatasetListResponsePage) (w : World) :
    nextPages factoryName result w =
      if result.NotDone then
        match result.NextWithContext with
        | .error err => (.ret none (some err), w.record .NextWithContext)
        | .ok next =>
          nextPages factoryName next
            (streamValues factoryName next.Values (w.record .NextWithContext))
      else (.ret none none, w) := by
  cases result <;> rfl

/-- Streaming the first page and running the paging loop: the sink receives the items of
every page fetched successfully, one `NextWithContext` call is issued per fetch, and the
result is that of the first failing fetch, if any. -/
theorem nextPages_run (factoryName : String) (result : DatasetListResponsePage) (w : World) :
    nextPages factoryName result (streamValues factoryName result.Values w) =
      (result.outcome,
        { streamed := w.streamed ++ tagged factoryName result.fetched,
          calls := w.calls ++ List.replicate result.fetches VendorCall.NextWithContext }) := by
  induction result generalizing w with
  | final values =>
    simp [nextPages, DatasetListResponsePage.outcome, DatasetListResponsePage.fetched,
      DatasetListResponsePage.fetches, DatasetListResponsePage.Values, streamValues_eq]
  | failing values err =>
    simp [nextPages, DatasetListResponsePage.outcome, DatasetListResponsePage.fetched,
      DatasetListResponsePage.fetches, DatasetListResponsePage.Values, streamValues_eq,
      World.record]
  | more values next ih =>
    have step : nextPages factoryName (.more values next)
          (streamValues factoryName (DatasetListResponsePage.more values next).Values w) =
        nextPages factoryName next (streamValues factoryName next.Values
          ((streamValues factoryName values w).record .NextWithContext)) := rfl
    rw [step, ih]
    simp [DatasetListResponsePage.outcome, DatasetListResponsePage.fetched,
      DatasetListResponsePage.fetches, streamValues_eq, World.record, tagged,
      List.replicate_succ]

theorem fetched_ofPages (first : List DatasetResource) (rest : List (List DatasetResource)) :
    (DatasetListResponsePage.ofPages first rest).fetched = (first :: rest).flatten := by
  induction rest generalizing first with
  | nil => simp [DatasetListResponsePage.ofPages, DatasetListResponsePage.fetched]
  | cons p ps ih =>
    simp [DatasetListResponsePage.ofPages, DatasetListResponsePage.fetched, ih]

theorem outcome_ofPages (first : List DatasetResource) (rest : List (List DatasetResource)) :
    (DatasetListResponsePage.ofPages first rest).outcome = .ret none none := by
  induction rest generalizing first with
  | nil => rfl
  | cons p ps ih => simpa [DatasetListResponsePage.ofPages, DatasetListResponsePage.outcome] using ih p

theorem fetches_ofPages (first : List DatasetResource) (rest : List (List DatasetResource)) :
    (DatasetListResponsePage.ofPages first rest).fetches = rest.length := by
  induction rest generalizing first with
  | nil => rfl
  | cons p ps ih => simp [DatasetListResponsePage.ofPages, DatasetListResponsePage.fetches, ih]

theorem fetched_ofPagesThenError (first : List DatasetResource) (err : Error)
    (rest : List (List DatasetResource)) :
    (DatasetListResponsePage.ofPagesThenError first err rest).fetched = (first :: rest).flatten := by
  induction rest generalizing first with
  | nil => simp [DatasetListResponsePage.ofPagesThenError, DatasetListResponsePage.fetched]
  | cons p ps ih =>
    simp [DatasetListResponsePage.ofPagesThenError, DatasetListResponsePage.fetched, ih]

theorem outcome_ofPagesThenError (first : List DatasetResource) (err : Error)
    (rest : List (List DatasetResource)) :
    (DatasetListResponsePage.ofPagesThenError first err rest).outcome = .ret none (some err) := by
  induction rest generalizing first with
  | nil => rfl
  | cons p ps ih =>
    simpa [DatasetListResponsePage.ofPagesThenError, DatasetListResponsePage.outcome] using ih p

theorem fetches_ofPagesThenError (first : List DatasetResource) (err : Error)
    (rest : List (List DatasetResource)) :
    (DatasetListResponsePage.ofPagesThenError first err rest).fetches = rest.length + 1 := by
  induction rest generalizing first with
  | nil => rfl
  | cons p ps ih =>
    simp [DatasetListResponsePage.ofPagesThenError, DatasetListResponsePage.fetches, ih]

/-- One call of the list function on a parent whose `ID` and `Name` are present, whose
`ID` has a segment at index 4, and for which session and first page call succeed. -/
theorem listDataFactoryDatasets_run (env : Env) (session : Session) (parent : Factory)
    (id resourceGroup name : String) (result : DatasetListResponsePage) (w : World)
    (hs : env.GetNewSession "MANAGEMENT" = .ok session)
    (hid : parent.ID = some id)
    (hrg : (strings.Split id '/')[4]? = some resourceGroup)
    (hname : parent.Name = some name)
    (hcall : env.ListByFactory ⟨session.SubscriptionID, session.Authorizer⟩ resourceGroup name
      = .ok result) :
    listDataFactoryDatasets env ⟨parent⟩ w =
      (result.outcome,
        { streamed := w.streamed ++ tagged name result.fetched,
          calls := w.calls ++
            VendorCall.ListByFactory ⟨session.SubscriptionID, session.Authorizer⟩ resourceGroup name ::
              List.replicate result.fetches VendorCall.NextWithContext }) := by
  simp only [listDataFactoryDatasets, hs, hid, hrg, hname, NewDatasetsClient, hcall]
  rw [nextPages_run]
  simp [World.record]

theorem outcome_ne_panic (result : DatasetListResponsePage) :
    result.outcome ≠ HydrateResult.panic := by
  induction result with
  | final values => simp [DatasetListResponsePage.outcome]
  | more values next ih => simpa [DatasetListResponsePage.outcome] using ih
  | failing values err => simp [DatasetListResponsePage.outcome]

/-- One call of the list function whose first page call fails. -/
theorem listDataFactoryDatasets_first_page_error (env : Env) (session : Session)
    (parent : Factory) (id resourceGroup name : String) (e : Error) (w : World)
    (hs : env.GetNewSession "MANAGEMENT" = .ok session)
    (hid : parent.ID = some id)
    (hrg : (strings.Split id '/')[4]? = some resourceGroup)
    (hname : parent.Name = some name)
    (hcall : env.ListByFactory ⟨session.SubscriptionID, session.Authorizer⟩ resourceGroup name
      = .error e) :
    listDataFactoryDatasets env ⟨parent⟩ w =
      (.ret none (some e),
        { streamed := w.streamed,
          calls := w.calls ++
            [VendorCall.ListByFactory ⟨session.SubscriptionID, session.Authorizer⟩
              resourceGroup name] }) := by
  simp only [listDataFactoryDatasets, hs, hid, hrg, hname, NewDatasetsClient, hcall]
  simp [World.record]

/-- Every record in the sink after a call of the list function was there before or is an
item of the paged result the vendor returned, paired with the name it was listed under. -/
theorem listDataFactoryDatasets_streamed_origin (env : Env) (h : HydrateData) (w : World)
    (item : DatasetInfo) (hitem : item ∈ (listDataFactoryDatasets env h w).2.streamed) :
    item ∈ w.streamed ∨
      ∃ client resourceGroup name result,
        env.ListByFactory client resourceGroup name = .ok result ∧
        item.DatasetResource ∈ result.fetched ∧ item.FactoryName = name := by
  obtain ⟨parent⟩ := h
  cases hs : env.GetNewSession "MANAGEMENT" with
  | error err => exact Or.inl (by simpa [listDataFactoryDatasets, hs] using hitem)
  | ok session =>
    cases hid : parent.ID with
    | none => exact Or.inl (by simpa [listDataFactoryDatasets, hs, hid] using hitem)
    | some id =>
      cases hrg : (strings.Split id '/')[4]? with
      | none => exact Or.inl (by simpa [listDataFactoryDatasets, hs, hid, hrg] using hitem)
      | some resourceGroup =>
        cases hname : parent.Name with
        | none =>
          exact Or.inl (by simpa [listDataFactoryDatasets, hs, hid, hrg, hname] using hitem)
        | some name =>
          cases hcall : env.ListByFactory ⟨session.SubscriptionID, session.Authorizer⟩
              resourceGroup name with
          | error e =>
            rw [listDataFactoryDatasets_first_page_error env session parent id resourceGroup
              name e w hs hid hrg hname hcall] at hitem
            exact Or.inl hitem
          | ok result =>
            rw [listDataFactoryDatasets_run env session parent id resourceGroup name result w
              hs hid hrg hname hcall] at hitem
            simp only [List.mem_append, tagged, List.mem_map] at hitem
            rcases hitem with hold | ⟨dataset, hmem, rfl⟩
            · exact Or.inl hold
            · exact Or.inr ⟨_, resourceGroup, name, result, hcall, hmem, rfl⟩

/-- The get function when the session provider fails. -/
theorem getDataFactoryDataset_session_error (env : Env) (d : QueryData) (w : World) (e : Error)
    (hs : env.GetNewSession "MANAGEMENT" = .error e) :
    getDataFactoryDataset env d w = (.ret none (some e), w) := by
  simp [getDataFactoryDataset, hs]

/-- The get function with a session and an underspecified key. -/
theorem getDataFactoryDataset_empty_key (env : Env) (session : Session) (d : QueryData)
    (w : World)
    (hs : env.GetNewSession "MANAGEMENT" = .ok session)
    (hkey : GetStringValue (d.qual "name") = "" ∨ GetStringValue (d.qual "resource_group") = "" ∨
      GetStringValue (d.qual "factory_name") = "") :
    getDataFactoryDataset env d w = (.ret none none, w) := by
  simp only [getDataFactoryDataset, hs]
  rw [if_pos hkey]

/-- The get function with a session and a fully specified key: one vendor call, whose
answer decides the result. -/
theorem getDataFactoryDataset_call (env : Env) (session : Session) (d : QueryData) (w : World)
    (hs : env.GetNewSession "MANAGEMENT" = .ok session)
    (hn : GetStringValue (d.qual "name") ≠ "")
    (hr : GetStringValue (d.qual "resource_group") ≠ "")
    (hf : GetStringValue (d.qual "factory_name") ≠ "") :
    getDataFactoryDataset env d w =
      ((match env.Get ⟨session.SubscriptionID, session.Authorizer⟩
            (GetStringValue (d.qual "resource_group")) (GetStringValue (d.qual "factory_name"))
            (GetStringValue (d.qual "name")) "" with
        | .error err => HydrateResult.ret none (some err)
        | .ok op =>
          if op.ID ≠ none then .ret (some ⟨op, GetStringValue (d.qual "factory_name")⟩) none
          else .ret none none),
        { streamed := w.streamed,
          calls := w.calls ++
            [VendorCall.Get ⟨session.SubscriptionID, session.Authorizer⟩
              (GetStringValue (d.qual "resource_group")) (GetStringValue (d.qual "factory_name"))
              (GetStringValue (d.qual "name")) ""] }) := by
  have hkey : ¬ (GetStringValue (d.qual "name") = "" ∨
      GetStringValue (d.qual "resource_group") = "" ∨
      GetStringValue (d.qual "factory_name") = "") := by
    rintro (h | h | h)
    · exact hn h
    · exact hr h
    · exact hf h
  simp only [getDataFactoryDataset, hs, NewDatasetsClient]
  rw [if_neg hkey]
  cases env.Get ⟨session.SubscriptionID, session.Authorizer⟩
      (GetStringValue (d.qual "resource_group")) (GetStringValue (d.qual "factory_name"))
      (GetStringValue (d.qual "name")) "" with
  | error err => rfl
  | ok op =>
    by_cases hid : op.ID = none
    · simp [hid, World.record]
    · simp [hid, World.record]

theorem splitChars_append_sep (sep : Char) (a b : List Char) (ha : sep ∉ a) :
    splitChars sep (a ++ sep :: b) = a :: splitChars sep b := by
  induction a with
  | nil => simp [splitChars]
  | cons c cs ih =>
    have hc : c ≠ sep := fun h => ha (by simp [h])
    have hcs : sep ∉ cs := fun h => ha (List.mem_cons_of_mem c h)
    simp [splitChars, hc, ih hcs]

/-- Splitting a resource path: the subscription is segment 2 and the resource group is
segment 4. -/
theorem Split_resource_path (sub rg tail : String) (hsub : '/' ∉ sub.toList)
    (hrg : '/' ∉ rg.toList) :
    strings.Split ("/subscriptions/" ++ sub ++ "/resourceGroups/" ++ rg ++ "/" ++ tail) '/' =
      "" :: "subscriptions" :: sub :: "resourceGroups" :: rg :: strings.Split tail '/' := by
  have h1 : ("/subscriptions/" : String).data = [] ++ '/' :: ("subscriptions".data ++ ['/']) := rfl
  have h2 : ("/resourceGroups/" : String).data = '/' :: ("resourceGroups".data ++ ['/']) := rfl
  have h3 : ("/" : String).data = ['/'] := rfl
  have hs : '/' ∉ "subscriptions".data := by decide
  have hr : '/' ∉ "resourceGroups".data := by decide
  have e : ("/subscriptions/" ++ sub ++ "/resourceGroups/" ++ rg ++ "/" ++ tail).toList =
      [] ++ '/' :: ("subscriptions".data ++ '/' :: (sub.data ++ '/' :: ("resourceGroups".data ++
        '/' :: (rg.data ++ '/' :: tail.data)))) := by
    simp only [String.toList, String.data_append, h1, h2, h3]
    simp
  unfold strings.Split
  rw [e, splitChars_append_sep _ _ _ (by simp), splitChars_append_sep _ _ _ hs,
    splitChars_append_sep '/' sub.data _ hsub, splitChars_append_sep _ _ _ hr,
    splitChars_append_sep '/' rg.data _ hrg]
  rfl

/-! ## The list operation -/

/-- C1: for every list of parents and, per parent, every finite sequence of vendor pages,
with session acquisition and every page call succeeding (so each parent has `ID` and
`Name` set and a segment at index 4 of its `ID`, and the vendor answers the call made for
it with the pages `first :: rest`, every fetch succeeding), running
`listDataFactoryDatasets` once per parent in parent order returns `(nil, nil)` for every
parent and appends to the sink exactly the concatenation of all pages of all parents, page
order then order within the page, each item tagged with the name of its parent. -/
theorem list_streams_concatenation (env : Env) (session : Session) (xs : List ParentPages)
    (w : World)
    (hs : env.GetNewSession "MANAGEMENT" = .ok session)
    (hp : ∀ x ∈ xs, ∃ id resourceGroup name,
      x.parent.ID = some id ∧ (strings.Split id '/')[4]? = some resourceGroup ∧
      x.parent.Name = some name ∧
      env.ListByFactory ⟨session.SubscriptionID, session.Authorizer⟩ resourceGroup name
        = .ok (.ofPages x.first x.rest)) :
    (listForParents env (xs.map (fun x => x.parent)) w).1 = xs.map (fun _ => .ret none none) ∧
    (listForParents env (xs.map (fun x => x.parent)) w).2.streamed =
      w.streamed ++ xs.flatMap ParentPages.records := by
  induction xs generalizing w with
  | nil => simp [listForParents]
  | cons x xs ih =>
    obtain ⟨id, resourceGroup, name, hid, hrg, hname, hcall⟩ := hp x (List.mem_cons_self x xs)
    have hrun := listDataFactoryDatasets_run env session x.parent id resourceGroup name
      (.ofPages x.first x.rest) w hs hid hrg hname hcall
    have htail := ih (listDataFactoryDatasets env ⟨x.parent⟩ w).2
      (fun y hy => hp y (List.mem_cons_of_mem x hy))
    simp only [List.map_cons, listForParents]
    refine ⟨?_, ?_⟩
    · rw [htail.1, hrun, outcome_ofPages]
    · rw [htail.2, hrun, fetched_ofPages]
      simp [ParentPages.records, hname, List.flatMap_cons]

/-- C1, the scenario of the specification: parents `FactoryA` (one page `D1`, `D2`) and
`FactoryB` (`D3`, then an empty last page) give the stream `D1`, `D2`, `D3`, tagged
`FactoryA`, `FactoryA`, `FactoryB`. -/
theorem list_streams_concatenation_witness :
    (listForParents sampleEnv [sampleFactory "FactoryA", sampleFactory "FactoryB"]
        World.empty).2.streamed =
      [⟨sampleDataset "FactoryA" "D1", "FactoryA"⟩, ⟨sampleDataset "FactoryA" "D2", "FactoryA"⟩,
        ⟨sampleDataset "FactoryB" "D3", "FactoryB"⟩] :=
  (list_streams_concatenation sampleEnv sampleSession
    [⟨sampleFactory "FactoryA",
        [sampleDataset "FactoryA" "D1", sampleDataset "FactoryA" "D2"], []⟩,
      ⟨sampleFactory "FactoryB", [sampleDataset "FactoryB" "D3"], [[]]⟩]
    World.empty rfl
    (by
      intro x hx
      simp only [List.mem_cons, List.mem_singleton, List.not_mem_nil, or_false] at hx
      rcases hx with rfl | rfl
      · exact ⟨_, "RG", "FactoryA", rfl, by decide, rfl, rfl⟩
      · exact ⟨_, "RG", "FactoryB", rfl, by decide, rfl, rfl⟩)).2

/-- C7: when session acquisition fails with `e`, `listDataFactoryDatasets` returns exactly
`(nil, e)`, issues no vendor call and streams nothing; when the first page call fails
with `e`, it returns `(nil, e)` after that one call and streams nothing; when the pages
`first :: rest` are fetched and the next fetch fails with `e`, it returns `(nil, e)`, the
failing fetch is the last vendor call (no retry), and the sink holds what it held before
followed by exactly the items of `first :: rest`, in order. -/
theorem list_failure_aborts (env : Env) (parent : Factory) (w : World) (e : Error) :
    (env.GetNewSession "MANAGEMENT" = .error e →
      listDataFactoryDatasets env ⟨parent⟩ w = (.ret none (some e), w)) ∧
    (∀ (session : Session) (id resourceGroup name : String),
      env.GetNewSession "MANAGEMENT" = .ok session →
      parent.ID = some id → (strings.Split id '/')[4]? = some resourceGroup →
      parent.Name = some name →
      env.ListByFactory ⟨session.SubscriptionID, session.Authorizer⟩ resourceGroup name
        = .error e →
      listDataFactoryDatasets env ⟨parent⟩ w =
        (.ret none (some e),
          { streamed := w.streamed,
            calls := w.calls ++
              [VendorCall.ListByFactory ⟨session.SubscriptionID, session.Authorizer⟩
                resourceGroup name] })) ∧
    (∀ (session : Session) (id resourceGroup name : String) (first : List DatasetResource)
        (rest : List (List DatasetResource)),
      env.GetNewSession "MANAGEMENT" = .ok session →
      parent.ID = some id → (strings.Split id '/')[4]? = some resourceGroup →
      parent.Name = some name →
      env.ListByFactory ⟨session.SubscriptionID, session.Authorizer⟩ resourceGroup name
        = .ok (.ofPagesThenError first e rest) →
      listDataFactoryDatasets env ⟨parent⟩ w =
        (.ret none (some e),
          { streamed := w.streamed ++ tagged name (first :: rest).flatten,
            calls := w.calls ++
              VendorCall.ListByFactory ⟨session.SubscriptionID, session.Authorizer⟩
                  resourceGroup name ::
                List.replicate (rest.length + 1) VendorCall.NextWithContext })) := by
  refine ⟨?_, ?_, ?_⟩
  · intro hs
    simp [listDataFactoryDatasets, hs]
  · intro session id resourceGroup name hs hid hrg hname hcall
    exact listDataFactoryDatasets_first_page_error env session parent id resourceGroup name e w
      hs hid hrg hname hcall
  · intro session id resourceGroup name first rest hs hid hrg hname hcall
    rw [listDataFactoryDatasets_run env session parent id resourceGroup name _ w
      hs hid hrg hname hcall, outcome_ofPagesThenError, fetched_ofPagesThenError,
      fetches_ofPagesThenError]

/-- C7 on the sample vendor: a failing session (even for a parent without `ID`), the
failing first page of `FactoryX`, and `FactoryC`, whose third page cannot be fetched. -/
theorem list_failure_aborts_witness :
    listDataFactoryDatasets noSessionEnv ⟨factoryWithoutID⟩ World.empty =
      (.ret none (some "AuthorizationFailed"), World.empty) ∧
    listDataFactoryDatasets sampleEnv ⟨sampleFactory "FactoryX"⟩ World.empty =
      (.ret none (some "ResourceNotFound"),
        { streamed := [],
          calls := [VendorCall.ListByFactory ⟨"SUB", "bearer"⟩ "RG" "FactoryX"] }) ∧
    listDataFactoryDatasets sampleEnv ⟨sampleFactory "FactoryC"⟩ World.empty =
      (.ret none (some "TooManyRequests"),
        { streamed := [⟨sampleDataset "FactoryC" "D1", "FactoryC"⟩,
            ⟨sampleDataset "FactoryC" "D2", "FactoryC"⟩],
          calls := [VendorCall.ListByFactory ⟨"SUB", "bearer"⟩ "RG" "FactoryC",
            VendorCall.NextWithContext, VendorCall.NextWithContext] }) :=
  ⟨(list_failure_aborts noSessionEnv factoryWithoutID World.empty "AuthorizationFailed").1 rfl,
    (list_failure_aborts sampleEnv (sampleFactory "FactoryX") World.empty
      "ResourceNotFound").2.1 sampleSession _ "RG" "FactoryX" rfl rfl (by decide) rfl rfl,
    (list_failure_aborts sampleEnv (sampleFactory "FactoryC") World.empty
      "TooManyRequests").2.2 sampleSession _ "RG" "FactoryC" [sampleDataset "FactoryC" "D1"]
      [[sampleDataset "FactoryC" "D2"]] rfl rfl (by decide) rfl rfl⟩

/-- C10: for a parent factory whose `ID` and `Name` are present and whose `ID` splits at
`"/"` into at least five segments, with a session acquired, the lookup of segment 4 is in
range, the list function does not panic, and its first vendor call, the only
list-by-parent call it makes, is issued on a client carrying the session's subscription,
for the resource group that is exactly segment 4 and the factory's `Name`; all later calls
are next-page fetches. -/
theorem list_call_scope (env : Env) (session : Session) (parent : Factory) (id name : String)
    (w : World)
    (hs : env.GetNewSession "MANAGEMENT" = .ok session)
    (hid : parent.ID = some id) (hname : parent.Name = some name)
    (hlen : 5 ≤ (strings.Split id '/').length) :
    ∃ resourceGroup, (strings.Split id '/')[4]? = some resourceGroup ∧
      (listDataFactoryDatasets env ⟨parent⟩ w).1 ≠ .panic ∧
      ∃ k, (listDataFactoryDatasets env ⟨parent⟩ w).2.calls =
        w.calls ++
          VendorCall.ListByFactory ⟨session.SubscriptionID, session.Authorizer⟩
              resourceGroup name ::
            List.replicate k VendorCall.NextWithContext := by
  have hlt : 4 < (strings.Split id '/').length := hlen
  refine ⟨(strings.Split id '/')[4], List.getElem?_eq_getElem hlt, ?_⟩
  have hrg := List.getElem?_eq_getElem hlt
  cases hcall : env.ListByFactory ⟨session.SubscriptionID, session.Authorizer⟩
      (strings.Split id '/')[4] name with
  | error e =>
    rw [listDataFactoryDatasets_first_page_error env session parent id _ name e w
      hs hid hrg hname hcall]
    exact ⟨by simp, 0, rfl⟩
  | ok result =>
    rw [listDataFactoryDatasets_run env session parent id _ name result w
      hs hid hrg hname hcall]
    exact ⟨outcome_ne_panic result, result.fetches, rfl⟩

/-- C10 on the sample vendor: the call for `FactoryB` is scoped to resource group `RG`,
factory `FactoryB`, subscription `SUB`. -/
theorem list_call_scope_witness :
    ∃ resourceGroup,
      (strings.Split
        "/subscriptions/SUB/resourceGroups/RG/providers/Microsoft.DataFactory/factories/FactoryB"
        '/')[4]? = some resourceGroup ∧
      (listDataFactoryDatasets sampleEnv ⟨sampleFactory "FactoryB"⟩ World.empty).1 ≠ .panic ∧
      ∃ k, (listDataFactoryDatasets sampleEnv ⟨sampleFactory "FactoryB"⟩ World.empty).2.calls =
        [] ++ VendorCall.ListByFactory ⟨"SUB", "bearer"⟩ resourceGroup "FactoryB" ::
          List.replicate k VendorCall.NextWithContext :=
  list_call_scope sampleEnv sampleSession (sampleFactory "FactoryB") _ "FactoryB" World.empty
    rfl rfl rfl (by decide)

/-! ## The get operation -/

/-- C2, as stated, fails: with the key part `name` empty and a session provider that
fails, `getDataFactoryDataset` returns the session error, not `(nil, nil)`. -/
theorem get_empty_key_session_error_counterexample :
    GetStringValue ((keyQuals "" "RG" "FactoryA").qual "name") = "" ∧
    (getDataFactoryDataset noSessionEnv (keyQuals "" "RG" "FactoryA") World.empty).1 =
      .ret none (some "AuthorizationFailed") ∧
    (getDataFactoryDataset noSessionEnv (keyQuals "" "RG" "FactoryA") World.empty).1 ≠
      .ret none none := by
  decide

/-- C2, amended: when session acquisition succeeds and at least one of the three key
parts is the empty string, `getDataFactoryDataset` returns `(nil, nil)` and leaves sink
and call log untouched, whatever the vendor would have answered. -/
theorem get_empty_key_no_record (env : Env) (session : Session) (d : QueryData) (w : World)
    (hs : env.GetNewSession "MANAGEMENT" = .ok session)
    (hkey : GetStringValue (d.qual "name") = "" ∨ GetStringValue (d.qual "resource_group") = "" ∨
      GetStringValue (d.qual "factory_name") = "") :
    getDataFactoryDataset env d w = (.ret none none, w) :=
  getDataFactoryDataset_empty_key env session d w hs hkey

/-- C2, amended, on the sample vendor: dataset `D1` exists, yet a key without resource
group yields no record. -/
theorem get_empty_key_no_record_witness :
    getDataFactoryDataset sampleEnv (keyQuals "D1" "" "FactoryA") World.empty =
      (.ret none none, World.empty) :=
  get_empty_key_no_record sampleEnv sampleSession (keyQuals "D1" "" "FactoryA") World.empty rfl
    (Or.inr (Or.inl (by decide)))

/-- C3: `getDataFactoryDataset` issues no vendor call when any of the three key parts is
empty (whatever the session provider does), and when session acquisition succeeds and all
three key parts are non-empty it issues exactly one, the get-by-key call for
(resource_group, factory_name, name) of the key with an empty expand parameter. -/
theorem get_vendor_calls (env : Env) (d : QueryData) (w : World) :
    ((GetStringValue (d.qual "name") = "" ∨ GetStringValue (d.qual "resource_group") = "" ∨
        GetStringValue (d.qual "factory_name") = "") →
      (getDataFactoryDataset env d w).2.calls = w.calls) ∧
    (∀ session : Session, env.GetNewSession "MANAGEMENT" = .ok session →
      GetStringValue (d.qual "name") ≠ "" → GetStringValue (d.qual "resource_group") ≠ "" →
      GetStringValue (d.qual "factory_name") ≠ "" →
      (getDataFactoryDataset env d w).2.calls =
        w.calls ++
          [VendorCall.Get ⟨session.SubscriptionID, session.Authorizer⟩
            (GetStringValue (d.qual "resource_group")) (GetStringValue (d.qual "factory_name"))
            (GetStringValue (d.qual "name")) ""]) := by
  refine ⟨?_, ?_⟩
  · intro hkey
    cases hs : env.GetNewSession "MANAGEMENT" with
    | error e => rw [getDataFactoryDataset_session_error env d w e hs]
    | ok session => rw [getDataFactoryDataset_empty_key env session d w hs hkey]
  · intro session hs hn hr hf
    rw [getDataFactoryDataset_call env session d w hs hn hr hf]

/-- C3 on the sample vendor: no call for a key without factory name, with or without a
session; one call, `Get RG FactoryA D1 ""`, for the full key. -/
theorem get_vendor_calls_witness :
    (getDataFactoryDataset sampleEnv (keyQuals "D1" "RG" "") World.empty).2.calls = [] ∧
    (getDataFactoryDataset noSessionEnv (keyQuals "D1" "RG" "") World.empty).2.calls = [] ∧
    (getDataFactoryDataset sampleEnv (keyQuals "D1" "RG" "FactoryA") World.empty).2.calls =
      [VendorCall.Get ⟨"SUB", "bearer"⟩ "RG" "FactoryA" "D1" ""] :=
  ⟨(get_vendor_calls sampleEnv (keyQuals "D1" "RG" "") World.empty).1
      (Or.inr (Or.inr (by decide))),
    (get_vendor_calls noSessionEnv (keyQuals "D1" "RG" "") World.empty).1
      (Or.inr (Or.inr (by decide))),
    (get_vendor_calls sampleEnv (keyQuals "D1" "RG" "FactoryA") World.empty).2 sampleSession rfl
      (by decide) (by decide) (by decide)⟩

/-- C4: with three non-empty key parts, a session, and a vendor call that succeeds with a
payload whose identifier is present and not the empty string, `getDataFactoryDataset`
returns no error and one record: the payload unchanged, with `FactoryName` equal to the
`factory_name` key part. -/
theorem get_returns_record (env : Env) (session : Session) (d : QueryData) (w : World)
    (op : DatasetResource) (id : String)
    (hs : env.GetNewSession "MANAGEMENT" = .ok session)
    (hn : GetStringValue (d.qual "name") ≠ "")
    (hr : GetStringValue (d.qual "resource_group") ≠ "")
    (hf : GetStringValue (d.qual "factory_name") ≠ "")
    (hget : env.Get ⟨session.SubscriptionID, session.Authorizer⟩
      (GetStringValue (d.qual "resource_group")) (GetStringValue (d.qual "factory_name"))
      (GetStringValue (d.qual "name")) "" = .ok op)
    (hid : op.ID = some id) (_hne : id ≠ "") :
    (getDataFactoryDataset env d w).1 =
      .ret (some { DatasetResource := op, FactoryName := GetStringValue (d.qual "factory_name") })
        none := by
  rw [getDataFactoryDataset_call env session d w hs hn hr hf, hget]
  simp [hid]

/-- C4 on the sample vendor: getting `D1` of `FactoryA` returns it, tagged `FactoryA`. -/
theorem get_returns_record_witness :
    (getDataFactoryDataset sampleEnv (keyQuals "D1" "RG" "FactoryA") World.empty).1 =
      .ret (some ⟨sampleDataset "FactoryA" "D1", "FactoryA"⟩) none :=
  get_returns_record sampleEnv sampleSession (keyQuals "D1" "RG" "FactoryA") World.empty
    (sampleDataset "FactoryA" "D1") (sampleDatasetID "FactoryA" "D1") rfl (by decide) (by decide)
    (by decide) rfl rfl (by decide)

/-- C5: with three non-empty key parts and a session, a vendor success payload with no
identifier set yields `(nil, nil)`, as a not-found outcome does, whatever the other fields
of the payload are. -/
theorem get_no_identifier_no_record (env : Env) (session : Session) (d : QueryData) (w : World)
    (op : DatasetResource)
    (hs : env.GetNewSession "MANAGEMENT" = .ok session)
    (hn : GetStringValue (d.qual "name") ≠ "")
    (hr : GetStringValue (d.qual "resource_group") ≠ "")
    (hf : GetStringValue (d.qual "factory_name") ≠ "")
    (hget : env.Get ⟨session.SubscriptionID, session.Authorizer⟩
      (GetStringValue (d.qual "resource_group")) (GetStringValue (d.qual "factory_name"))
      (GetStringValue (d.qual "name")) "" = .ok op)
    (hid : op.ID = none) :
    (getDataFactoryDataset env d w).1 = .ret none none := by
  rw [getDataFactoryDataset_call env session d w hs hn hr hf, hget]
  simp [hid]

/-- C5 on the sample vendor: `ghost` comes back as a success payload with nothing set. -/
theorem get_no_identifier_no_record_witness :
    (getDataFactoryDataset sampleEnv (keyQuals "ghost" "RG" "FactoryA") World.empty).1 =
      .ret none none :=
  get_no_identifier_no_record sampleEnv sampleSession (keyQuals "ghost" "RG" "FactoryA")
    World.empty emptyPayload rfl (by decide) (by decide) (by decide) rfl rfl

/-- C8: when the vendor get-by-key call fails with `e`, `getDataFactoryDataset` returns
`e` unchanged and no record, and the ignore policy of the `Get` configuration suppresses
`e` exactly when `e` matches `ResourceNotFound`, `ResourceGroupNotFound` or `404`. -/
theorem get_vendor_error_policy (errorMatches : Error → String → Bool) (env : Env)
    (session : Session) (d : QueryData) (w : World) (e : Error)
    (hs : env.GetNewSession "MANAGEMENT" = .ok session)
    (hn : GetStringValue (d.qual "name") ≠ "")
    (hr : GetStringValue (d.qual "resource_group") ≠ "")
    (hf : GetStringValue (d.qual "factory_name") ≠ "")
    (hget : env.Get ⟨session.SubscriptionID, session.Authorizer⟩
      (GetStringValue (d.qual "resource_group")) (GetStringValue (d.qual "factory_name"))
      (GetStringValue (d.qual "name")) "" = .error e) :
    (getDataFactoryDataset env d w).1 = .ret none (some e) ∧
    ((tableAzureDataFactoryDataset.Get errorMatches).ShouldIgnoreError e = true ↔
      (errorMatches e "ResourceNotFound" = true ∨ errorMatches e "ResourceGroupNotFound" = true ∨
        errorMatches e "404" = true)) := by
  refine ⟨?_, ?_⟩
  · rw [getDataFactoryDataset_call env session d w hs hn hr hf, hget]
  · simp [tableAzureDataFactoryDataset.Get, isNotFoundError]

/-- C8 on the sample vendor, matching by containment: getting `missing` fails with
`ResourceNotFound`, which is suppressed; getting `other` fails with
`InternalServerError`, which is not. -/
theorem get_vendor_error_policy_witness :
    ((getDataFactoryDataset sampleEnv (keyQuals "missing" "RG" "FactoryA") World.empty).1 =
        .ret none (some "ResourceNotFound") ∧
      (tableAzureDataFactoryDataset.Get containsCode).ShouldIgnoreError "ResourceNotFound"
        = true) ∧
    ((getDataFactoryDataset sampleEnv (keyQuals "other" "RG" "FactoryA") World.empty).1 =
        .ret none (some "InternalServerError") ∧
      ¬ (tableAzureDataFactoryDataset.Get containsCode).ShouldIgnoreError "InternalServerError"
        = true) :=
  have hfound := get_vendor_error_policy containsCode sampleEnv sampleSession
    (keyQuals "missing" "RG" "FactoryA") World.empty "ResourceNotFound" rfl (by decide)
    (by decide) (by decide) rfl
  have hother := get_vendor_error_policy containsCode sampleEnv sampleSession
    (keyQuals "other" "RG" "FactoryA") World.empty "InternalServerError" rfl (by decide)
    (by decide) (by decide) rfl
  ⟨⟨hfound.1, hfound.2.mpr (Or.inl (by decide))⟩,
    ⟨hother.1, fun h => absurd (hother.2.mp h) (by decide)⟩⟩

/-! ## Invariant on emitted records -/

/-- C6, as stated, fails on both entry points: the get function returns a record whose
identifier is the empty string when the vendor's payload carries one, and the list
function streams an item that has no identifier at all. -/
theorem emitted_identifier_counterexample :
    ((getDataFactoryDataset sampleEnv (keyQuals "blank" "RG" "FactoryA") World.empty).1 =
        .ret (some ⟨blankIDPayload, "FactoryA"⟩) none ∧
      blankIDPayload.ID = some "") ∧
    ((listDataFactoryDatasets sampleEnv ⟨sampleFactory "FactoryG"⟩ World.empty).2.streamed =
        [⟨emptyPayload, "FactoryG"⟩] ∧
      emptyPayload.ID = none) := by
  decide

/-- C6, amended: every record returned by `getDataFactoryDataset` has its `ID` present
(not nil); `listDataFactoryDatasets` checks no identifier, every record it adds to the
sink being an item of the vendor's paged result as received. -/
theorem emitted_identifier_present (env : Env) :
    (∀ (d : QueryData) (w : World) (item : DatasetInfo) (err : Option Error),
      (getDataFactoryDataset env d w).1 = .ret (some item) err →
        item.DatasetResource.ID ≠ none) ∧
    (∀ (h : HydrateData) (w : World) (item : DatasetInfo),
      item ∈ (listDataFactoryDatasets env h w).2.streamed →
        item ∈ w.streamed ∨
          ∃ client resourceGroup name result,
            env.ListByFactory client resourceGroup name = .ok result ∧
            item.DatasetResource ∈ result.fetched ∧ item.FactoryName = name) := by
  refine ⟨?_, fun h w item hitem => listDataFactoryDatasets_streamed_origin env h w item hitem⟩
  intro d w item err hret
  cases hs : env.GetNewSession "MANAGEMENT" with
  | error e =>
    rw [getDataFactoryDataset_session_error env d w e hs] at hret
    simp at hret
  | ok session =>
    by_cases hkey : GetStringValue (d.qual "name") = "" ∨
        GetStringValue (d.qual "resource_group") = "" ∨
        GetStringValue (d.qual "factory_name") = ""
    · rw [getDataFactoryDataset_empty_key env session d w hs hkey] at hret
      simp at hret
    · rw [getDataFactoryDataset_call env session d w hs (fun h => hkey (Or.inl h))
        (fun h => hkey (Or.inr (Or.inl h))) (fun h => hkey (Or.inr (Or.inr h)))] at hret
      cases hget : env.Get ⟨session.SubscriptionID, session.Authorizer⟩
          (GetStringValue (d.qual "resource_group")) (GetStringValue (d.qual "factory_name"))
          (GetStringValue (d.qual "name")) "" with
      | error e =>
        rw [hget] at hret
        simp at hret
      | ok op =>
        rw [hget] at hret
        by_cases hid : op.ID = none
        · simp [hid] at hret
        · simp only [ne_eq, hid, not_false_eq_true, if_true, HydrateResult.ret.injEq,
            Option.some.injEq] at hret
          rw [← hret.1]
          exact hid

/-! ## Derived columns -/

/-- C9: the columns `resource_group` and `subscription_id` depend on the record's `ID`
alone (records with equal `ID` get equal values, whatever their name, factory name, etag,
type and properties), and for every identifier
`/subscriptions/SUB/resourceGroups/RG/.../factories/F/datasets/D`, where `SUB` and `RG`
are path segments (contain no `/`), `resource_group` is `RG` and `subscription_id` is
`SUB`. -/
theorem derived_columns (a : DatasetInfo) :
    (∀ b : DatasetInfo, a.DatasetResource.ID = b.DatasetResource.ID →
      tableAzureDataFactoryDataset.resource_group.Transform a =
          tableAzureDataFactoryDataset.resource_group.Transform b ∧
        tableAzureDataFactoryDataset.subscription_id.Transform a =
          tableAzureDataFactoryDataset.subscription_id.Transform b) ∧
    (∀ sub rg mid f d : String, '/' ∉ sub.toList → '/' ∉ rg.toList →
      a.DatasetResource.ID = some ("/subscriptions/" ++ sub ++ "/resourceGroups/" ++ rg ++ "/"
        ++ mid ++ "/factories/" ++ f ++ "/datasets/" ++ d) →
      tableAzureDataFactoryDataset.resource_group.Transform a = some rg ∧
        tableAzureDataFactoryDataset.subscription_id.Transform a = some sub) := by
  refine ⟨?_, ?_⟩
  · intro b hab
    simp [tableAzureDataFactoryDataset.resource_group,
      tableAzureDataFactoryDataset.subscription_id, FromFieldID, hab]
  · intro sub rg mid f d hsub hrg hid
    have hshape : "/subscriptions/" ++ sub ++ "/resourceGroups/" ++ rg ++ "/"
          ++ mid ++ "/factories/" ++ f ++ "/datasets/" ++ d =
        "/subscriptions/" ++ sub ++ "/resourceGroups/" ++ rg ++ "/"
          ++ (mid ++ "/factories/" ++ f ++ "/datasets/" ++ d) := by
      simp [String.append_assoc]
    simp [tableAzureDataFactoryDataset.resource_group,
      tableAzureDataFactoryDataset.subscription_id, FromFieldID, hid,
      extractResourceGroupFromID, idToSubscriptionID, hshape,
      Split_resource_path sub rg _ hsub hrg]

/-- C9 on a sample record: dataset `D1` of `FactoryA` has resource group `RG` and
subscription `SUB`, and so has any record with the same identifier. -/
theorem derived_columns_witness :
    (tableAzureDataFactoryDataset.resource_group.Transform
        ⟨sampleDataset "FactoryA" "D1", "FactoryA"⟩ = some "RG" ∧
      tableAzureDataFactoryDataset.subscription_id.Transform
        ⟨sampleDataset "FactoryA" "D1", "FactoryA"⟩ = some "SUB") ∧
    (tableAzureDataFactoryDataset.resource_group.Transform
        ⟨sampleDataset "FactoryA" "D1", "FactoryA"⟩ =
      tableAzureDataFactoryDataset.resource_group.Transform
        ⟨{ Properties := [], ID := some (sampleDatasetID "FactoryA" "D1"), Name := none,
            Type_ := none, Etag := none }, "other"⟩ ∧
      tableAzureDataFactoryDataset.subscription_id.Transform
        ⟨sampleDataset "FactoryA" "D1", "FactoryA"⟩ =
      tableAzureDataFactoryDataset.subscription_id.Transform
        ⟨{ Properties := [], ID := some (sampleDatasetID "FactoryA" "D1"), Name := none,
            Type_ := none, Etag := none }, "other"⟩) :=
  ⟨(derived_columns ⟨sampleDataset "FactoryA" "D1", "FactoryA"⟩).2 "SUB" "RG"
      "providers/Microsoft.DataFactory" "FactoryA" "D1" (by decide) (by decide)
      (by decide),
    (derived_columns ⟨sampleDataset "FactoryA" "D1", "FactoryA"⟩).1 _ rfl⟩

end Azure
